import Mathlib

/-!
Verification of the Transcript repository (a browser app that improves,
summarizes and optionally translates a pasted transcript via a hosted
model API) against its natural-language specification.

The development shallowly embeds the relevant source code:
* `src/App.tsx` — the application state controller (`handleProcessText`,
  `handleTranslate`, `handleFileChange`, `handleApiError`, `removeTimestamps`,
  and the smaller handlers), modelled as a pure state machine over `AppState`
  whose handlers produce an explicit event trace (state updates and outbound
  model calls) that is then folded into the final state;
* `src/services/geminiService.ts` — `processTranscript` / `translateToItalian`,
  modelled as pure functions over an oracle `env : String → CallResult` that
  maps a full prompt string to the remote call's outcome; the file contains
  two variants (a module-scope client and a per-call `getAiClient`), both of
  which are embedded where a claim distinguishes them;
* `src/unnamed/part_000` — the localStorage-keyed variant of the service.
-/

set_option maxRecDepth 16384

namespace Transcript

/-! ## JavaScript string primitives

`jsWhitespace` is the ECMAScript WhiteSpace ∪ LineTerminator set, used both
by `String.prototype.trim` and by the regex class `\s`. -/

/-- The ECMAScript whitespace set (WhiteSpace ∪ LineTerminator). -/
def jsWhitespace (c : Char) : Bool :=
  c == ' ' || c == '\t' || c == '\n' || c == '\r' ||
  c == Char.ofNat 11 || c == Char.ofNat 12 || c == Char.ofNat 160 ||
  c == Char.ofNat 0x1680 || (0x2000 ≤ c.toNat && c.toNat ≤ 0x200a) ||
  c == Char.ofNat 0x2028 || c == Char.ofNat 0x2029 || c == Char.ofNat 0x202f ||
  c == Char.ofNat 0x205f || c == Char.ofNat 0x3000 || c == Char.ofNat 0xfeff

/-- `String.prototype.trim` on the character list. -/
def jsTrimList (l : List Char) : List Char :=
  ((l.dropWhile jsWhitespace).reverse.dropWhile jsWhitespace).reverse

/-- `String.prototype.trim`. -/
def jsTrim (s : String) : String := ⟨jsTrimList s.data⟩

/-- Helper for `jsIncludes`: does `pat` occur as a contiguous run in `l`? -/
def inclAux (pat : List Char) : List Char → Bool
  | [] => pat.isPrefixOf ([] : List Char)
  | c :: rest => pat.isPrefixOf (c :: rest) || inclAux pat rest

/-- `String.prototype.includes`. -/
def jsIncludes (s pat : String) : Bool := inclAux pat.data s.data

/-- `String.prototype.startsWith`. -/
def jsStartsWith (s pat : String) : Bool := pat.data.isPrefixOf s.data

/-- JavaScript truthiness of a `string | undefined` value: `undefined` and
the empty string are falsy. -/
def jsTruthy : Option String → Bool
  | none => false
  | some t => !(t == "")

/-! ## `removeTimestamps` (src/App.tsx, lines 23-25)

The source is
`text.replace(/(\[\d{2}:\d{2}:\d{2}\]|\d{1,2}:\d{2})\s?/g, '').trim()`.
The regex is embedded as a matcher `matchTs` that, at a given position,
returns the number of characters the regex engine consumes there
(alternation tries the bracketed form first; `\d{1,2}` is greedy with
backtracking; `\s?` greedily takes one whitespace character), and a scanner
`replaceTsF` that implements the global replace: scan left to right,
deleting each match and resuming after it.  The scanner is written with a
fuel argument (one unit per scanning step); since every step consumes at
least one character, fuel equal to the length of the input never runs out,
so `replaceTs` is exactly the global replace. -/

/-- Matches `\[\d{2}:\d{2}:\d{2}\]` at the start of `l` (consumes 10 chars). -/
def matchBracketTs : List Char → Option Nat
  | '[' :: a :: b :: ':' :: c :: d :: ':' :: e :: f :: ']' :: _ =>
    if a.isDigit && b.isDigit && c.isDigit && d.isDigit && e.isDigit && f.isDigit then
      some 10
    else none
  | _ => none

/-- Matches `\d\d:\d\d` at the start of `l` (the greedy two-digit attempt). -/
def matchShortTs2 : List Char → Bool
  | a :: b :: c :: d :: e :: _ => a.isDigit && b.isDigit && c == ':' && d.isDigit && e.isDigit
  | _ => false

/-- Matches `\d:\d\d` at the start of `l` (the one-digit backtrack). -/
def matchShortTs1 : List Char → Bool
  | a :: b :: c :: d :: _ => a.isDigit && b == ':' && c.isDigit && d.isDigit
  | _ => false

/-- Matches `\d{1,2}:\d{2}` at the start of `l`, greedy with backtracking. -/
def matchShortTs (l : List Char) : Option Nat :=
  if matchShortTs2 l then some 5 else if matchShortTs1 l then some 4 else none

/-- The optional trailing `\s?`: number of characters it consumes. -/
def tsSpaceOpt : List Char → Nat
  | [] => 0
  | c :: _ => if jsWhitespace c then 1 else 0

/-- Number of characters the regex
`(\[\d{2}:\d{2}:\d{2}\]|\d{1,2}:\d{2})\s?` consumes when matched at the
start of `l`; `none` when it does not match there. -/
def matchTs (l : List Char) : Option Nat :=
  match matchBracketTs l with
  | some n => some (n + tsSpaceOpt (l.drop n))
  | none =>
    match matchShortTs l with
    | some n => some (n + tsSpaceOpt (l.drop n))
    | none => none

/-- Fueled global-replace scanner for the timestamp regex. -/
def replaceTsF : Nat → List Char → List Char
  | 0, l => l
  | _ + 1, [] => []
  | fuel + 1, c :: rest =>
    match matchTs (c :: rest) with
    | some n => replaceTsF fuel ((c :: rest).drop n)
    | none => c :: replaceTsF fuel rest

/-- `text.replace(/(\[\d{2}:\d{2}:\d{2}\]|\d{1,2}:\d{2})\s?/g, '')`. -/
def replaceTs (l : List Char) : List Char := replaceTsF l.length l

/-- `removeTimestamps` from src/App.tsx. -/
def removeTimestamps (s : String) : String := ⟨jsTrimList (replaceTs s.data)⟩

/-- Does the regex match anywhere in `l`?  (`l` contains a timestamp marker.) -/
def hasTsMarker : List Char → Bool
  | [] => false
  | c :: rest => (matchTs (c :: rest)).isSome || hasTsMarker rest

/-! ### The spec's reading of the normalization ("only at line starts")

The specification describes the normalization as stripping the markers
only at the starts of lines.  `removeTimestampsLineStartSpec` follows the
spec's words — split into lines, strip leading markers of each line,
rejoin, trim — and is compared against the source's `removeTimestamps`. -/

/-- Fueled stripper of leading timestamp markers. -/
def stripLeadingTsF : Nat → List Char → List Char
  | 0, l => l
  | fuel + 1, l =>
    match matchTs l with
    | some n => stripLeadingTsF fuel (l.drop n)
    | none => l

/-- Strip all leading timestamp markers from a line. -/
def stripLeadingTs (l : List Char) : List Char := stripLeadingTsF l.length l

/-- Split a character list into lines at newline characters. -/
def splitNl : List Char → List (List Char)
  | [] => [[]]
  | c :: rest =>
    if c = '\n' then [] :: splitNl rest
    else
      match splitNl rest with
      | [] => [[c]]
      | g :: gs => (c :: g) :: gs

/-- Rejoin lines with newline characters. -/
def joinNl : List (List Char) → List Char
  | [] => []
  | [g] => g
  | g :: gs => g ++ '\n' :: joinNl gs

/-- The spec's description of the normalization: strip timestamp markers
only at line starts, then trim.  (Written from the spec's words, for
comparison against the source's `removeTimestamps`.) -/
def removeTimestampsLineStartSpec (s : String) : String :=
  ⟨jsTrimList (joinNl ((splitNl s.data).map stripLeadingTs))⟩

/-! ## The model service (src/services/geminiService.ts, src/unnamed/part_000)

A remote `generateContent` call is modelled by an oracle
`env : String → CallResult` from the full prompt string (the `contents`
field) to the outcome: `ok text` for a transport-success whose `.text`
payload is `text` (the empty string standing for an empty or undefined
payload, both falsy in the source's `if (!improvedText)` checks), and
`err msg` for a thrown `Error` with message `msg`. -/

/-- Decidable equality for `Except`, used to evaluate run outcomes on
concrete inputs. -/
instance {α β : Type} [DecidableEq α] [DecidableEq β] : DecidableEq (Except α β) :=
  fun a b =>
    match a, b with
    | .ok x, .ok y =>
      if h : x = y then .isTrue (by rw [h]) else .isFalse (by simp [h])
    | .error x, .error y =>
      if h : x = y then .isTrue (by rw [h]) else .isFalse (by simp [h])
    | .ok _, .error _ => .isFalse (by simp)
    | .error _, .ok _ => .isFalse (by simp)

/-- Outcome of one remote `generateContent` call. -/
inductive CallResult where
  | ok (text : String)
  | err (msg : String)
deriving DecidableEq, Repr

/-- The improvement prompt (`contents` of the first Stage-1 call). -/
def improvePrompt (text : String) : String :=
  "Migliora il seguente testo. Correggi la grammatica, la punteggiatura e ricostruisci le frasi per renderlo scorrevole e coerente, preservando il significato originale. Fornisci solo il testo corretto senza aggiungere introduzioni o commenti.\n\n---\n\n" ++ text

/-- The summarization prompt (`contents` of the second Stage-1 call). -/
def summarizePrompt (text : String) : String :=
  "Crea un riassunto molto breve e sintetico del seguente testo in italiano, evidenziando solo i punti chiave principali:\n\n---\n\n" ++ text

/-- The translation prompt (`contents` of each Stage-2 call). -/
def translatePrompt (text : String) : String :=
  "Traduci il seguente testo in italiano. Se il testo è già in italiano, restituiscilo senza modifiche. Fornisci solo il testo tradotto/originale senza aggiungere introduzioni o commenti.\n\n---\n\n" ++ text

def cfgMsg : String :=
  "API key is not configured. Please set it in your deployment environment."

def improveEmptyMsg : String := "Improving the text failed or returned empty."

def summaryEmptyMsg : String := "Summarization failed or returned empty."

def translateEmptyMsg : String := "Translation failed or returned empty."

/-- The catch-block wrapper of `processTranscript`. -/
def wrapProcess (m : String) : String :=
  "Failed to process text with Gemini API: " ++ m

/-- The catch-block wrapper of `translateToItalian`. -/
def wrapTranslate (m : String) : String :=
  "Failed to translate text with Gemini API: " ++ m

/-- `processTranscript` from src/services/geminiService.ts: the `!API_KEY`
guard (the truthiness of the module-load key, passed as `keyPresent`) is
checked before the try block, so its error is not wrapped; then the
improvement call, the empty check, the summarization call built from the
improved text, and its empty check, with every failure inside the try
block rewrapped by the catch.  Returns the outcome together with the list
of prompts actually sent. -/
def processTranscriptRun (keyPresent : Bool) (env : String → CallResult)
    (text : String) : Except String (String × String) × List String :=
  if !keyPresent then (.error cfgMsg, [])
  else
    match env (improvePrompt text) with
    | .err m => (.error (wrapProcess m), [improvePrompt text])
    | .ok imp =>
      if imp = "" then
        (.error (wrapProcess improveEmptyMsg), [improvePrompt text])
      else
        match env (summarizePrompt imp) with
        | .err m =>
          (.error (wrapProcess m), [improvePrompt text, summarizePrompt imp])
        | .ok sum =>
          if sum = "" then
            (.error (wrapProcess summaryEmptyMsg),
             [improvePrompt text, summarizePrompt imp])
          else
            (.ok (imp, sum), [improvePrompt text, summarizePrompt imp])

/-- `translateToItalian` from src/services/geminiService.ts. -/
def translateToItalianRun (keyPresent : Bool) (env : String → CallResult)
    (text : String) : Except String String :=
  if !keyPresent then .error cfgMsg
  else
    match env (translatePrompt text) with
    | .err m => .error (wrapTranslate m)
    | .ok t => if t = "" then .error (wrapTranslate translateEmptyMsg) else .ok t

/-! ### The localStorage-keyed variant (src/unnamed/part_000)

`getAiClient` reads the key from local storage before the try block (its
throw is not wrapped); the catch additionally maps messages containing
the substring `API key not valid` to a dedicated message. -/

def itCfgMsg : String :=
  "Chiave API di Gemini non trovata nell\x27archivio locale. Per favore, imposta la tua chiave API nell\x27applicazione."

def itImproveEmptyMsg : String :=
  "Il miglioramento del testo è fallito o non ha restituito alcun risultato."

def itSummaryEmptyMsg : String :=
  "La creazione del riassunto è fallita o non ha restituito alcun risultato."

def itKeyNotValidMsg : String :=
  "La tua chiave API di Gemini non è valida. Controllala e riprova."

/-- The catch-block of part_000's `processTranscript`: an authentication
message is replaced, any other message is wrapped. -/
def wrapProcessIt (m : String) : String :=
  if jsIncludes m "API key not valid" then itKeyNotValidMsg
  else "Impossibile elaborare il testo con l\x27API Gemini: " ++ m

/-- `getAiClient` from src/unnamed/part_000: `localStorage.getItem` yields
`storedKey`; a missing or empty (falsy) value throws. -/
def getAiClientIt : Option String → Except String String
  | none => .error itCfgMsg
  | some k => if k = "" then .error itCfgMsg else .ok k

/-- The try block of part_000's `processTranscript`, with its call trace. -/
def processTranscriptItBody (env : String → CallResult) (text : String) :
    Except String (String × String) × List String :=
  match env (improvePrompt text) with
    | .err m => (.error (wrapProcessIt m), [improvePrompt text])
    | .ok imp =>
      if imp = "" then
        (.error (wrapProcessIt itImproveEmptyMsg), [improvePrompt text])
      else
        match env (summarizePrompt imp) with
        | .err m =>
          (.error (wrapProcessIt m), [improvePrompt text, summarizePrompt imp])
        | .ok sum =>
          if sum = "" then
            (.error (wrapProcessIt itSummaryEmptyMsg),
             [improvePrompt text, summarizePrompt imp])
          else
            (.ok (imp, sum), [improvePrompt text, summarizePrompt imp])

/-- `processTranscript` from src/unnamed/part_000: `getAiClient()` runs
before the try block (its throw is not wrapped), then the body. -/
def processTranscriptItRun (storedKey : Option String) (env : String → CallResult)
    (text : String) : Except String (String × String) × List String :=
  match getAiClientIt storedKey with
  | .error m => (.error m, [])
  | .ok _ => processTranscriptItBody env text

/-! ### Credential usage per variant (for the client-caching claim)

The first variant of geminiService.ts constructs the client once at module
scope — `const ai = new GoogleGenAI({ apiKey: API_KEY })` with `API_KEY`
read when the module loads — so every call of every later run carries the
load-time credential, whatever the active credential is at run time.  The
second variant calls `getAiClient()` at the start of each run, reading the
credential active at that moment.  Here the oracle also receives the
credential the client was constructed with, so a run records which
credential each outbound call uses. -/

/-- geminiService.ts second variant, `getAiClient` (env-keyed): a missing
or empty (falsy) key throws. -/
def getAiClientKey : Option String → Except String String
  | none => .error "Gemini API key not found. Please select an API key to use this application."
  | some k =>
    if k = "" then
      .error "Gemini API key not found. Please select an API key to use this application."
    else .ok k

/-- The improve-then-summarize body, issuing every call through a client
constructed with credential `clientKey`; records `(credential, prompt)`
for each call sent. -/
def processTranscriptWithClientKey (clientKey : Option String)
    (gen : Option String → String → CallResult) (text : String) :
    Except String (String × String) × List (Option String × String) :=
  match gen clientKey (improvePrompt text) with
  | .err m => (.error (wrapProcess m), [(clientKey, improvePrompt text)])
  | .ok imp =>
    if imp = "" then
      (.error (wrapProcess improveEmptyMsg), [(clientKey, improvePrompt text)])
    else
      match gen clientKey (summarizePrompt imp) with
      | .err m =>
        (.error (wrapProcess m),
         [(clientKey, improvePrompt text), (clientKey, summarizePrompt imp)])
      | .ok sum =>
        if sum = "" then
          (.error (wrapProcess summaryEmptyMsg),
           [(clientKey, improvePrompt text), (clientKey, summarizePrompt imp)])
        else
          (.ok (imp, sum),
           [(clientKey, improvePrompt text), (clientKey, summarizePrompt imp)])

/-- A Stage-1 run in the module-scope-client variant: `loadKey` is the
credential captured when the module loaded, `runtimeKey` the credential
active when the run starts.  The run goes through the module-scope client,
so `runtimeKey` is never consulted. -/
def moduleClientRun (loadKey : Option String) (_runtimeKey : Option String)
    (gen : Option String → String → CallResult) (text : String) :
    Except String (String × String) × List (Option String × String) :=
  if !jsTruthy loadKey then (.error cfgMsg, [])
  else processTranscriptWithClientKey loadKey gen text

/-- A Stage-1 run in the `getAiClient` variant: the client is constructed
fresh from the credential active when the run starts. -/
def freshClientRun (runtimeKey : Option String)
    (gen : Option String → String → CallResult) (text : String) :
    Except String (String × String) × List (Option String × String) :=
  match getAiClientKey runtimeKey with
  | .error m => (.error m, [])
  | .ok k => processTranscriptWithClientKey (some k) gen text

/-! ## The application state controller (src/App.tsx)

The React component's state hooks become the fields of `AppState`; each
event handler becomes a function producing an explicit list of events —
`set*` state updates in source order, interleaved with the outbound model
calls (`Ev.call`) made while the handler is suspended — which is folded
into the final state.  The `checkingApiKey` flag only gates the initial
spinner and carries no claim, so it is not modelled. -/

/-- `ProcessedData` from src/types (as used by App.tsx): Stage-1 output
plus the optional Stage-2 fields. -/
structure ProcessedData where
  improvedText : String
  summary : String
  translatedImprovedText : Option String
  translatedSummary : Option String
deriving DecidableEq, Repr

/-- The controller's state hooks. -/
structure AppState where
  inputText : String
  isLoading : Bool
  isTranslating : Bool
  error : Option String
  result : Option ProcessedData
  hasApiKey : Bool
deriving DecidableEq, Repr

/-- The initial hook values. -/
def initState : AppState :=
  { inputText := "", isLoading := false, isTranslating := false,
    error := none, result := none, hasApiKey := false }

/-- One event of a handler run: a state update or an outbound model call. -/
inductive Ev where
  | setLoading (b : Bool)
  | setTranslating (b : Bool)
  | setError (e : Option String)
  | setResult (r : Option ProcessedData)
  | setResultTranslated (t1 t2 : String)
  | setHasKey (b : Bool)
  | setInput (t : String)
  | call (prompt : String)
deriving DecidableEq, Repr

/-- Effect of one event on the state.  `setResultTranslated` is the
functional update `setResult(prev => ({...prev!, translatedImprovedText,
translatedSummary}))`; `call` leaves the state unchanged. -/
def applyEv (s : AppState) : Ev → AppState
  | .setLoading b => { s with isLoading := b }
  | .setTranslating b => { s with isTranslating := b }
  | .setError e => { s with error := e }
  | .setResult r => { s with result := r }
  | .setResultTranslated t1 t2 =>
    { s with result := s.result.map fun r =>
        { r with translatedImprovedText := some t1, translatedSummary := some t2 } }
  | .setHasKey b => { s with hasApiKey := b }
  | .setInput t => { s with inputText := t }
  | .call _ => s

/-- Fold a trace of events into a final state. -/
def applyEvents (s : AppState) (evs : List Ev) : AppState :=
  evs.foldl applyEv s

def pasteMsg : String := "Please paste some text to process."

def invalidKeyMsg : String :=
  "Your API key appears to be invalid. Please select a valid API key to continue."

/-- The substring `handleApiError` looks for to classify an
invalid-credential failure. -/
def keyErrSig : String := "Requested entity was not found"

def uploadRejectMsg : String := "Please upload a valid .txt file."

def fileNonStringMsg : String := "Could not read the file content."

def fileReadFailMsg : String := "Failed to read the file."

def selectKeyFailMsg : String :=
  "Could not open the API key selection dialog. Please try refreshing the page."

def connectFailMsg : String :=
  "Could not connect to the API key service. Please refresh the page."

/-- `handleApiError` from src/App.tsx, as the events it performs for a
caught error with message `m`.  (Every failure the pipeline surfaces is a
thrown `Error`, so the `instanceof Error` test holds.)  It returns `true`
— triggering the caller's early return — exactly when the message contains
the invalid-credential signature. -/
def apiErrorEvents (m : String) : List Ev :=
  if jsIncludes m keyErrSig then [.setError (some invalidKeyMsg), .setHasKey false]
  else [.setError (some m)]

/-- Events performed after the Stage-1 pipeline settles: the try block's
`setResult` on success, or the catch (`handleApiError`) and — on the
invalid-credential early return — both the explicit `setIsLoading(false)`
and the finally block, hence the doubled event. -/
def processTailEvents (out : Except String (String × String)) : List Ev :=
  match out with
  | .ok (imp, sum) => [.setResult (some ⟨imp, sum, none, none⟩), .setLoading false]
  | .error m =>
    apiErrorEvents m ++
      if jsIncludes m keyErrSig then [.setLoading false, .setLoading false]
      else [.setLoading false]

/-- `handleProcessText` from src/App.tsx as its event trace.  `k` is the
truthiness of the service module's load-time `API_KEY`. -/
def handleProcessTextTrace (env : String → CallResult) (k : Bool)
    (s : AppState) : List Ev :=
  if jsTrim s.inputText = "" then [.setError (some pasteMsg)]
  else
    [.setLoading true, .setError none, .setResult none]
      ++ (processTranscriptRun k env (removeTimestamps s.inputText)).2.map Ev.call
      ++ processTailEvents (processTranscriptRun k env (removeTimestamps s.inputText)).1

/-- `handleProcessText`: the state after the handler settles. -/
def handleProcessText (env : String → CallResult) (k : Bool) (s : AppState) :
    AppState :=
  applyEvents s (handleProcessTextTrace env k s)

/-- Events performed after the `Promise.all` join settles: the functional
`setResult` update on success of both calls, or the catch
(`handleApiError`) with the rejection that won the join — the
`improvedText` call's failure when it fails, otherwise the `summary`
call's — and the translating flag resets. -/
def translateTailEvents (o1 o2 : Except String String) : List Ev :=
  match o1, o2 with
  | .ok t1, .ok t2 => [.setResultTranslated t1 t2, .setTranslating false]
  | .error m, _ =>
    apiErrorEvents m ++
      if jsIncludes m keyErrSig then [.setTranslating false, .setTranslating false]
      else [.setTranslating false]
  | .ok _, .error m =>
    apiErrorEvents m ++
      if jsIncludes m keyErrSig then [.setTranslating false, .setTranslating false]
      else [.setTranslating false]

/-- `handleTranslate` from src/App.tsx as its event trace.  `Promise.all`
issues both translate calls at once, so both `call` events are present
whatever the outcomes. -/
def handleTranslateTrace (env : String → CallResult) (k : Bool)
    (s : AppState) : List Ev :=
  match s.result with
  | none => []
  | some r =>
    [.setTranslating true, .setError none,
     .call (translatePrompt r.improvedText), .call (translatePrompt r.summary)]
      ++ translateTailEvents (translateToItalianRun k env r.improvedText)
           (translateToItalianRun k env r.summary)

/-- `handleTranslate`: the state after the handler settles. -/
def handleTranslate (env : String → CallResult) (k : Bool) (s : AppState) :
    AppState :=
  applyEvents s (handleTranslateTrace env k s)

/-- Outcome of reading an uploaded file (the FileReader callbacks):
`onload` with a string result, `onload` with a non-string result, or
`onerror`. -/
inductive ReadOutcome where
  | success (text : String)
  | nonString
  | failure
deriving DecidableEq, Repr

/-- An uploaded file: its MIME type and how reading it would go. -/
structure FileUpload where
  mimeType : String
  readOutcome : ReadOutcome
deriving DecidableEq, Repr

/-- `handleFileChange` from src/App.tsx as its event trace (the input
element's `value` reset has no modelled state).  A file whose MIME type
does not start with `text/plain` is rejected before the reader is
created, so the trace never consults `readOutcome` in that branch. -/
def handleFileChangeTrace : Option FileUpload → AppState → List Ev
  | none, _ => []
  | some file, _ =>
    if !jsStartsWith file.mimeType "text/plain" then
      [.setError (some uploadRejectMsg)]
    else
      .setError none ::
        match file.readOutcome with
        | .success t => [.setInput t]
        | .nonString => [.setError (some fileNonStringMsg)]
        | .failure => [.setError (some fileReadFailMsg)]

/-- `handleFileChange`: the state after the handler settles. -/
def handleFileChange (f : Option FileUpload) (s : AppState) : AppState :=
  applyEvents s (handleFileChangeTrace f s)

/-- `handleClearText` from src/App.tsx. -/
def handleClearText (s : AppState) : AppState :=
  { s with inputText := "", result := none, error := none }

/-- `handleSelectKey` from src/App.tsx: clears the error, then either the
dialog opens (the UI optimistically records the key as present) or the
call throws. -/
def handleSelectKey (opened : Bool) (s : AppState) : AppState :=
  if opened then { s with error := none, hasApiKey := true }
  else { s with error := some selectKeyFailMsg }

/-- The `checkKey` effect from src/App.tsx: `hasSelectedApiKey` returns
`some b`, or throws (`none`). -/
def checkKeyStep (found : Option Bool) (s : AppState) : AppState :=
  match found with
  | some true => { s with hasApiKey := true }
  | some false => s
  | none => { s with error := some connectFailMsg }

/-- One user-triggered or effect-triggered controller operation. -/
inductive Step : AppState → AppState → Prop where
  | typeInput (s : AppState) (t : String) : Step s { s with inputText := t }
  | clear (s : AppState) : Step s (handleClearText s)
  | selectKey (s : AppState) (opened : Bool) : Step s (handleSelectKey opened s)
  | checkKey (s : AppState) (found : Option Bool) : Step s (checkKeyStep found s)
  | file (s : AppState) (f : Option FileUpload) : Step s (handleFileChange f s)
  | process (s : AppState) (env : String → CallResult) (k : Bool) :
      Step s (handleProcessText env k s)
  | translate (s : AppState) (env : String → CallResult) (k : Bool) :
      Step s (handleTranslate env k s)

/-- States reachable from the initial hook values through the controller's
operations. -/
def Reachable (s : AppState) : Prop :=
  Relation.ReflTransGen Step initState s

/-- Is an event an outbound model call? -/
def Ev.isCall : Ev → Bool
  | .call _ => true
  | _ => false

/-- The `disabled` attribute of the translate button:
`isTranslating || !!result.translatedImprovedText` when the result is
rendered; without a result the button does not exist, so no click can be
delivered. -/
def translateDisabled (s : AppState) : Bool :=
  match s.result with
  | none => true
  | some r => s.isTranslating || jsTruthy r.translatedImprovedText

/-- A translate click as the UI delivers it: `handleTranslate` runs only
when the button is rendered and enabled. -/
def uiTranslate (env : String → CallResult) (k : Bool) (s : AppState) : AppState :=
  if translateDisabled s then s else handleTranslate env k s

/-- The result invariant maintained by the controller: a present result
has non-empty Stage-1 fields, and its translated fields are either both
absent or both present and non-empty. -/
def resultInv : Option ProcessedData → Prop
  | none => True
  | some r =>
    r.improvedText ≠ "" ∧ r.summary ≠ "" ∧
      ((r.translatedImprovedText = none ∧ r.translatedSummary = none) ∨
       (∃ t1 t2, r.translatedImprovedText = some t1 ∧
         r.translatedSummary = some t2 ∧ t1 ≠ "" ∧ t2 ≠ ""))

/-! ### Concrete fixtures used by witnesses and counterexamples -/

/-- An oracle whose every call succeeds with the text `T`. -/
def envOkT : String → CallResult := fun _ => .ok "T"

/-- An oracle whose every call fails with the authentication-denial
signature the controller classifies on. -/
def envKeyErr : String → CallResult := fun _ => .err "Requested entity was not found"

/-- An oracle failing exactly on the translation prompt for `B`. -/
def envFailB : String → CallResult :=
  fun p => if p = translatePrompt "B" then .err "boom" else .ok "T"

/-- An oracle whose every call fails with the message `boom`. -/
def envBoom : String → CallResult := fun _ => .err "boom"

/-- A keyed generator whose every call succeeds with the text `out`. -/
def genOk : Option String → String → CallResult := fun _ _ => .ok "out"

/-- A state with pending input `hi` and a selected key. -/
def sHi : AppState :=
  { inputText := "hi", isLoading := false, isTranslating := false,
    error := none, result := none, hasApiKey := true }

/-- A state holding a previous Stage-1 result and pending input `hi`. -/
def sPrev : AppState :=
  { inputText := "hi", isLoading := false, isTranslating := false,
    error := none, result := some ⟨"X", "Y", none, none⟩, hasApiKey := true }

/-- A state holding the Stage-1 result `improvedText="A"`, `summary="B"`. -/
def sAB : AppState :=
  { inputText := "x", isLoading := false, isTranslating := false,
    error := none, result := some ⟨"A", "B", none, none⟩, hasApiKey := true }

/-- A state whose result already carries translated fields. -/
def sTr : AppState :=
  { inputText := "x", isLoading := false, isTranslating := false,
    error := none, result := some ⟨"A", "B", some "TA", some "TB"⟩, hasApiKey := true }

/-! ## Supporting lemmas -/

theorem replaceTsF_of_no_marker (fuel : Nat) :
    ∀ l : List Char, hasTsMarker l = false → replaceTsF fuel l = l := by
  induction fuel with
  | zero => intro l _; rfl
  | succ n ih =>
    intro l h
    cases l with
    | nil => rfl
    | cons c rest =>
      cases hm : matchTs (c :: rest) with
      | some k =>
        exfalso
        simp [hasTsMarker, hm] at h
      | none =>
        have hrest : hasTsMarker rest = false := by
          simp [hasTsMarker, hm] at h
          exact h
        simp [replaceTsF, hm, ih rest hrest]

theorem replaceTs_of_no_marker (l : List Char) (h : hasTsMarker l = false) :
    replaceTs l = l :=
  replaceTsF_of_no_marker l.length l h

theorem processTranscriptRun_ok_ne (keyPresent : Bool) (env : String → CallResult)
    (text imp sum : String)
    (h : (processTranscriptRun keyPresent env text).1 = .ok (imp, sum)) :
    imp ≠ "" ∧ sum ≠ "" := by
  unfold processTranscriptRun at h
  split at h
  · exact absurd h (by simp)
  · split at h
    · exact absurd h (by simp)
    · split at h
      · exact absurd h (by simp)
      · rename_i hi
        split at h
        · exact absurd h (by simp)
        · split at h
          · exact absurd h (by simp)
          · rename_i hse
            simp at h
            exact ⟨h.1 ▸ hi, h.2 ▸ hse⟩

theorem translateToItalianRun_ok_ne (keyPresent : Bool) (env : String → CallResult)
    (text t : String) (h : translateToItalianRun keyPresent env text = .ok t) :
    t ≠ "" := by
  unfold translateToItalianRun at h
  split at h
  · exact absurd h (by simp)
  · split at h
    · exact absurd h (by simp)
    · split at h
      · exact absurd h (by simp)
      · rename_i hu
        simp at h
        exact h ▸ hu

theorem applyEvents_append (s : AppState) (l1 l2 : List Ev) :
    applyEvents s (l1 ++ l2) = applyEvents (applyEvents s l1) l2 := by
  simp [applyEvents]

theorem applyEvents_calls (s : AppState) (ps : List String) :
    applyEvents s (ps.map Ev.call) = s := by
  induction ps with
  | nil => rfl
  | cons p ps ih => exact ih

theorem handleProcessText_empty (env : String → CallResult) (k : Bool) (s : AppState)
    (h : jsTrim s.inputText = "") :
    handleProcessText env k s = { s with error := some pasteMsg } := by
  unfold handleProcessText handleProcessTextTrace
  rw [if_pos h]
  rfl

theorem handleProcessText_ok (env : String → CallResult) (k : Bool) (s : AppState)
    (imp sum : String) (h : jsTrim s.inputText ≠ "")
    (hr : (processTranscriptRun k env (removeTimestamps s.inputText)).1 = .ok (imp, sum)) :
    handleProcessText env k s =
      { s with isLoading := false, error := none,
               result := some ⟨imp, sum, none, none⟩ } := by
  unfold handleProcessText handleProcessTextTrace
  rw [if_neg h, hr, applyEvents_append, applyEvents_append, applyEvents_calls]
  rfl

theorem handleProcessText_err_key (env : String → CallResult) (k : Bool) (s : AppState)
    (m : String) (h : jsTrim s.inputText ≠ "")
    (hr : (processTranscriptRun k env (removeTimestamps s.inputText)).1 = .error m)
    (hs : jsIncludes m keyErrSig = true) :
    handleProcessText env k s =
      { s with isLoading := false, error := some invalidKeyMsg,
               result := none, hasApiKey := false } := by
  unfold handleProcessText handleProcessTextTrace
  rw [if_neg h, hr, applyEvents_append, applyEvents_append, applyEvents_calls]
  simp [processTailEvents, apiErrorEvents, hs, applyEvents, applyEv]

theorem handleProcessText_err_other (env : String → CallResult) (k : Bool) (s : AppState)
    (m : String) (h : jsTrim s.inputText ≠ "")
    (hr : (processTranscriptRun k env (removeTimestamps s.inputText)).1 = .error m)
    (hs : jsIncludes m keyErrSig = false) :
    handleProcessText env k s =
      { s with isLoading := false, error := some m, result := none } := by
  unfold handleProcessText handleProcessTextTrace
  rw [if_neg h, hr, applyEvents_append, applyEvents_append, applyEvents_calls]
  simp [processTailEvents, apiErrorEvents, hs, applyEvents, applyEv]

theorem handleTranslate_none (env : String → CallResult) (k : Bool) (s : AppState)
    (h : s.result = none) : handleTranslate env k s = s := by
  unfold handleTranslate handleTranslateTrace
  rw [h]
  rfl

theorem handleTranslateTrace_some (env : String → CallResult) (k : Bool) (s : AppState)
    (r : ProcessedData) (h : s.result = some r) :
    handleTranslateTrace env k s =
      [.setTranslating true, .setError none,
       .call (translatePrompt r.improvedText), .call (translatePrompt r.summary)]
        ++ translateTailEvents (translateToItalianRun k env r.improvedText)
             (translateToItalianRun k env r.summary) := by
  unfold handleTranslateTrace
  rw [h]

theorem handleTranslate_ok (env : String → CallResult) (k : Bool) (s : AppState)
    (r : ProcessedData) (t1 t2 : String) (h : s.result = some r)
    (h1 : translateToItalianRun k env r.improvedText = .ok t1)
    (h2 : translateToItalianRun k env r.summary = .ok t2) :
    handleTranslate env k s =
      { s with isTranslating := false, error := none,
               result := some { r with translatedImprovedText := some t1,
                                       translatedSummary := some t2 } } := by
  unfold handleTranslate
  rw [handleTranslateTrace_some env k s r h, h1, h2]
  simp [translateTailEvents, applyEvents, applyEv, h]

theorem handleTranslate_err (env : String → CallResult) (k : Bool) (s : AppState)
    (r : ProcessedData) (m : String) (h : s.result = some r)
    (herr : translateToItalianRun k env r.improvedText = .error m ∨
            translateToItalianRun k env r.summary = .error m) :
    (handleTranslate env k s).result = s.result ∧
    (handleTranslate env k s).error.isSome = true ∧
    (handleTranslate env k s).isTranslating = false ∧
    (handleTranslate env k s).inputText = s.inputText := by
  unfold handleTranslate
  rw [handleTranslateTrace_some env k s r h]
  rcases herr with h1 | h2
  · rw [h1]
    by_cases hs : jsIncludes m keyErrSig <;>
      simp [translateTailEvents, apiErrorEvents, hs, applyEvents, applyEv]
  · cases hr1 : translateToItalianRun k env r.improvedText with
    | error m2 =>
      by_cases hs : jsIncludes m2 keyErrSig <;>
        simp [translateTailEvents, apiErrorEvents, hs, applyEvents, applyEv]
    | ok t1 =>
      rw [h2]
      by_cases hs : jsIncludes m keyErrSig <;>
        simp [translateTailEvents, apiErrorEvents, hs, applyEvents, applyEv]

theorem handleFileChange_reject (s : AppState) (file : FileUpload)
    (h : jsStartsWith file.mimeType "text/plain" = false) :
    handleFileChangeTrace (some file) s = [.setError (some uploadRejectMsg)] ∧
    handleFileChange (some file) s = { s with error := some uploadRejectMsg } := by
  have htr : handleFileChangeTrace (some file) s = [.setError (some uploadRejectMsg)] := by
    simp [handleFileChangeTrace, h]
  exact ⟨htr, by unfold handleFileChange; rw [htr]; rfl⟩

theorem handleFileChange_result (f : Option FileUpload) (s : AppState) :
    (handleFileChange f s).result = s.result := by
  cases f with
  | none => rfl
  | some file =>
    by_cases h : jsStartsWith file.mimeType "text/plain" = false
    · rw [(handleFileChange_reject s file h).2]
    · have h2 : jsStartsWith file.mimeType "text/plain" = true := by
        revert h
        cases jsStartsWith file.mimeType "text/plain" <;> simp
      cases ho : file.readOutcome <;>
        simp [handleFileChange, handleFileChangeTrace, h2, ho, applyEvents, applyEv]

theorem handleSelectKey_result (opened : Bool) (s : AppState) :
    (handleSelectKey opened s).result = s.result := by
  cases opened <;> rfl

theorem checkKeyStep_result (found : Option Bool) (s : AppState) :
    (checkKeyStep found s).result = s.result := by
  cases found with
  | none => rfl
  | some b => cases b <;> rfl

theorem step_resultInv (s s2 : AppState) (hstep : Step s s2)
    (hs : resultInv s.result) : resultInv s2.result := by
  cases hstep with
  | typeInput t => exact hs
  | clear => trivial
  | selectKey opened => rw [handleSelectKey_result]; exact hs
  | checkKey found => rw [checkKeyStep_result]; exact hs
  | file f => rw [handleFileChange_result]; exact hs
  | process env k =>
    by_cases he : jsTrim s.inputText = ""
    · rw [handleProcessText_empty env k s he]; exact hs
    · cases hr : (processTranscriptRun k env (removeTimestamps s.inputText)).1 with
      | ok p =>
        obtain ⟨imp, sum⟩ := p
        obtain ⟨h1, h2⟩ := processTranscriptRun_ok_ne k env _ imp sum hr
        rw [handleProcessText_ok env k s imp sum he hr]
        exact ⟨h1, h2, Or.inl ⟨rfl, rfl⟩⟩
      | error m =>
        by_cases hsg : jsIncludes m keyErrSig = true
        · rw [handleProcessText_err_key env k s m he hr hsg]; trivial
        · rw [handleProcessText_err_other env k s m he hr
            (by revert hsg; cases jsIncludes m keyErrSig <;> simp)]
          trivial
  | translate env k =>
    cases hres : s.result with
    | none => rw [handleTranslate_none env k s hres]; exact hs
    | some r =>
      cases h1 : translateToItalianRun k env r.improvedText with
      | error m =>
        rw [(handleTranslate_err env k s r m hres (Or.inl h1)).1, hres]
        rw [hres] at hs
        exact hs
      | ok t1 =>
        cases h2 : translateToItalianRun k env r.summary with
        | error m =>
          rw [(handleTranslate_err env k s r m hres (Or.inr h2)).1, hres]
          rw [hres] at hs
          exact hs
        | ok t2 =>
          rw [handleTranslate_ok env k s r t1 t2 hres h1 h2]
          rw [hres] at hs
          obtain ⟨hi, hsu, _⟩ := hs
          exact ⟨hi, hsu, Or.inr ⟨t1, t2, rfl, rfl,
            translateToItalianRun_ok_ne k env r.improvedText t1 h1,
            translateToItalianRun_ok_ne k env r.summary t2 h2⟩⟩

theorem reachable_resultInv (s : AppState) (h : Reachable s) : resultInv s.result := by
  induction h with
  | refl => trivial
  | tail h1 hstep ih => exact step_resultInv _ _ hstep ih

theorem processTranscriptWithClientKey_calls (ck : Option String)
    (gen : Option String → String → CallResult) (text : String) :
    ∀ c ∈ (processTranscriptWithClientKey ck gen text).2, c.1 = ck := by
  intro c hc
  unfold processTranscriptWithClientKey at hc
  split at hc
  · simp at hc; simp [hc]
  · split at hc
    · simp at hc; simp [hc]
    · split at hc
      · simp at hc; rcases hc with hc | hc <;> simp [hc]
      · split at hc
        · simp at hc; rcases hc with hc | hc <;> simp [hc]
        · simp at hc; rcases hc with hc | hc <;> simp [hc]

theorem getAiClientKey_ok (rk : Option String) (k : String)
    (h : getAiClientKey rk = .ok k) : rk = some k := by
  cases rk with
  | none => simp [getAiClientKey] at h
  | some x =>
    simp [getAiClientKey] at h
    split at h
    · simp at h
    · simp at h; rw [h]

theorem processTranscriptItRun_client_ok (key : String) (env : String → CallResult)
    (text : String) (hk : key ≠ "") :
    processTranscriptItRun (some key) env text = processTranscriptItBody env text := by
  simp [processTranscriptItRun, getAiClientIt, hk]

theorem handleProcessText_isLoading (env : String → CallResult) (k : Bool)
    (s : AppState) (h : jsTrim s.inputText ≠ "") :
    (handleProcessText env k s).isLoading = false := by
  cases hr : (processTranscriptRun k env (removeTimestamps s.inputText)).1 with
  | ok p =>
    obtain ⟨imp, sum⟩ := p
    rw [handleProcessText_ok env k s imp sum h hr]
  | error m =>
    by_cases hsg : jsIncludes m keyErrSig = true
    · rw [handleProcessText_err_key env k s m h hr hsg]
    · rw [handleProcessText_err_other env k s m h hr
        (by revert hsg; cases jsIncludes m keyErrSig <;> simp)]

theorem handleTranslate_isTranslating (env : String → CallResult) (k : Bool)
    (s : AppState) (r : ProcessedData) (h : s.result = some r) :
    (handleTranslate env k s).isTranslating = false := by
  cases h1 : translateToItalianRun k env r.improvedText with
  | error m => exact (handleTranslate_err env k s r m h (Or.inl h1)).2.2.1
  | ok t1 =>
    cases h2 : translateToItalianRun k env r.summary with
    | error m => exact (handleTranslate_err env k s r m h (Or.inr h2)).2.2.1
    | ok t2 => rw [handleTranslate_ok env k s r t1 t2 h h1 h2]

/-! ## The claims -/

/-- Claim C1: for every input that is non-empty after trimming, a Stage-1
run (`handleProcessText` calling `processTranscript`) either stores a
result whose `improvedText` and `summary` are both non-empty (with no
error), or stores no result together with a surfaced error — never a
result with exactly one of the two fields populated. -/
theorem stage1_result_all_or_nothing (env : String → CallResult) (k : Bool)
    (s : AppState) (h : jsTrim s.inputText ≠ "") :
    (∃ r, (handleProcessText env k s).result = some r ∧
      r.improvedText ≠ "" ∧ r.summary ≠ "" ∧
      r.translatedImprovedText = none ∧ r.translatedSummary = none ∧
      (handleProcessText env k s).error = none) ∨
    ((handleProcessText env k s).result = none ∧
      (handleProcessText env k s).error.isSome = true) := by
  cases hr : (processTranscriptRun k env (removeTimestamps s.inputText)).1 with
  | ok p =>
    obtain ⟨imp, sum⟩ := p
    obtain ⟨h1, h2⟩ := processTranscriptRun_ok_ne k env _ imp sum hr
    rw [handleProcessText_ok env k s imp sum h hr]
    exact Or.inl ⟨⟨imp, sum, none, none⟩, rfl, h1, h2, rfl, rfl, rfl⟩
  | error m =>
    by_cases hsg : jsIncludes m keyErrSig = true
    · rw [handleProcessText_err_key env k s m h hr hsg]
      exact Or.inr ⟨rfl, rfl⟩
    · rw [handleProcessText_err_other env k s m h hr
        (by revert hsg; cases jsIncludes m keyErrSig <;> simp)]
      exact Or.inr ⟨rfl, rfl⟩

/-- Witness for C1 at a concrete successful run. -/
theorem stage1_result_all_or_nothing_witness :
    (∃ r, (handleProcessText envOkT true sHi).result = some r ∧
      r.improvedText ≠ "" ∧ r.summary ≠ "" ∧
      r.translatedImprovedText = none ∧ r.translatedSummary = none ∧
      (handleProcessText envOkT true sHi).error = none) ∨
    ((handleProcessText envOkT true sHi).result = none ∧
      (handleProcessText envOkT true sHi).error.isSome = true) :=
  stage1_result_all_or_nothing envOkT true sHi (by decide)

/-- Claim C3 counterexample: an invalid-credential failure during Stage 1
does not leave the result unchanged from before the call — a previously
present result (here `improvedText="X"`, `summary="Y"`) is cleared when
the run starts and stays cleared, while the credential is evicted, an
error is surfaced, and the loading flag is cleared. -/
theorem stage1_key_error_changes_result :
    (processTranscriptRun true envKeyErr (removeTimestamps sPrev.inputText)).1 =
      .error (wrapProcess "Requested entity was not found") ∧
    jsIncludes (wrapProcess "Requested entity was not found") keyErrSig = true ∧
    sPrev.result = some ⟨"X", "Y", none, none⟩ ∧
    (handleProcessText envKeyErr true sPrev).result = none ∧
    (handleProcessText envKeyErr true sPrev).result ≠ sPrev.result ∧
    (handleProcessText envKeyErr true sPrev).hasApiKey = false ∧
    (handleProcessText envKeyErr true sPrev).error.isSome = true ∧
    (handleProcessText envKeyErr true sPrev).isLoading = false := by decide

/-- Claim C3 (amended): when a Stage-1 failure is classified as an
invalid-credential error, afterwards the credential is reported absent,
the result is `none` (Stage 1 cleared any previous result when it
started, and the failed run surfaces no partial result), the
invalid-credential message is present, and the loading flag is cleared. -/
theorem stage1_invalid_credential_outcome (env : String → CallResult) (k : Bool)
    (s : AppState) (m : String) (h : jsTrim s.inputText ≠ "")
    (hr : (processTranscriptRun k env (removeTimestamps s.inputText)).1 = .error m)
    (hsg : jsIncludes m keyErrSig = true) :
    (handleProcessText env k s).hasApiKey = false ∧
    (handleProcessText env k s).result = none ∧
    (handleProcessText env k s).error = some invalidKeyMsg ∧
    (handleProcessText env k s).isLoading = false := by
  rw [handleProcessText_err_key env k s m h hr hsg]
  exact ⟨rfl, rfl, rfl, rfl⟩

/-- Witness for C3's amended theorem at a concrete invalid-key run. -/
theorem stage1_invalid_credential_outcome_witness :
    (handleProcessText envKeyErr true sHi).hasApiKey = false ∧
    (handleProcessText envKeyErr true sHi).result = none ∧
    (handleProcessText envKeyErr true sHi).error = some invalidKeyMsg ∧
    (handleProcessText envKeyErr true sHi).isLoading = false :=
  stage1_invalid_credential_outcome envKeyErr true sHi
    (wrapProcess "Requested entity was not found") (by decide) (by decide) (by decide)

/-- Claim C4 counterexample: `removeTimestamps` strips a timestamp marker
in the middle of a line, which the spec's only-at-line-starts description
would leave in place. -/
theorem removeTimestamps_strips_mid_line :
    removeTimestamps "a 5:30 b" = "a b" ∧
    removeTimestampsLineStartSpec "a 5:30 b" = "a 5:30 b" ∧
    removeTimestamps "a 5:30 b" ≠ removeTimestampsLineStartSpec "a 5:30 b" := by
  decide

/-- Claim C4 (amended): `removeTimestamps` strips timestamp markers of the
literal forms `[HH:MM:SS]` or `H:MM`/`HH:MM` anywhere in the text (not
only at line starts), collapsing one optional trailing whitespace
character per marker, and then trims; the concrete examples hold, and any
input containing no timestamp markers is returned unchanged apart from
trimming. -/
theorem removeTimestamps_normalization :
    removeTimestamps "[00:00:05] Hello there" = "Hello there" ∧
    removeTimestamps "0:05 Hi" = "Hi" ∧
    ∀ s : String, hasTsMarker s.data = false → removeTimestamps s = jsTrim s := by
  refine ⟨by decide, by decide, ?_⟩
  intro s h
  unfold removeTimestamps jsTrim
  rw [replaceTs_of_no_marker s.data h]

/-- Witness for C4's amended theorem on a marker-free input. -/
theorem removeTimestamps_normalization_witness :
    removeTimestamps "0:05 Hi" = "Hi" ∧
    removeTimestamps "hello world" = jsTrim "hello world" :=
  ⟨removeTimestamps_normalization.2.1,
   removeTimestamps_normalization.2.2 "hello world" (by decide)⟩

/-- Claim C5: when the result already carries translated fields (present
in the code's sense, i.e. a truthy `translatedImprovedText`), the
translate button is disabled, so a UI-delivered Stage-2 re-invocation is
a no-op: the state is unchanged by the attempt.  The guard lives in the
controller, not in the pipeline. -/
theorem translate_blocked_when_translated (env : String → CallResult) (k : Bool)
    (s : AppState) (r : ProcessedData) (h : s.result = some r)
    (ht : jsTruthy r.translatedImprovedText = true) :
    translateDisabled s = true ∧ uiTranslate env k s = s := by
  have hd : translateDisabled s = true := by
    unfold translateDisabled
    rw [h]
    show (s.isTranslating || jsTruthy r.translatedImprovedText) = true
    rw [ht]
    simp
  refine ⟨hd, ?_⟩
  unfold uiTranslate
  rw [hd]
  rfl

/-- Witness for C5 at a concrete already-translated result. -/
theorem translate_blocked_when_translated_witness :
    translateDisabled sTr = true ∧ uiTranslate envOkT true sTr = sTr :=
  translate_blocked_when_translated envOkT true sTr ⟨"A", "B", some "TA", some "TB"⟩
    rfl (by decide)

/-- Claim C9: a Stage-1 run on input that is non-empty after trimming
begins by setting the loading flag and clearing the previous error and
result, all before any model call appears in the trace; empty or
whitespace-only input is rejected with a local error before any call is
made and with no other state change. -/
theorem stage1_clears_state_before_calls (env : String → CallResult) (k : Bool)
    (s : AppState) :
    (jsTrim s.inputText ≠ "" →
      ∃ rest, handleProcessTextTrace env k s =
        [.setLoading true, .setError none, .setResult none] ++ rest) ∧
    (jsTrim s.inputText = "" →
      handleProcessTextTrace env k s = [.setError (some pasteMsg)] ∧
      (∀ e ∈ handleProcessTextTrace env k s, e.isCall = false) ∧
      handleProcessText env k s = { s with error := some pasteMsg }) := by
  constructor
  · intro h
    unfold handleProcessTextTrace
    rw [if_neg h]
    exact ⟨_, rfl⟩
  · intro h
    have htr : handleProcessTextTrace env k s = [.setError (some pasteMsg)] := by
      unfold handleProcessTextTrace
      rw [if_pos h]
    refine ⟨htr, ?_, ?_⟩
    · rw [htr]
      intro e he
      simp at he
      rw [he]
      rfl
    · unfold handleProcessText
      rw [htr]
      rfl

/-- Witness for C9 on a non-empty and on a whitespace-only input. -/
theorem stage1_clears_state_before_calls_witness :
    (∃ rest, handleProcessTextTrace envOkT true sHi =
      [.setLoading true, .setError none, .setResult none] ++ rest) ∧
    handleProcessTextTrace envOkT true initState = [.setError (some pasteMsg)] :=
  ⟨(stage1_clears_state_before_calls envOkT true sHi).1 (by decide),
   ((stage1_clears_state_before_calls envOkT true initState).2 (by decide)).1⟩

/-- Claim C10: whenever `handleProcessText` or `handleTranslate` settles —
success, any failure kind, or the credential-error early return — the
corresponding loading flag is false.  The hypotheses on the early-return
paths mirror the UI guards: the process button is disabled while loading,
and the translate button exists only when a result is present. -/
theorem loading_flags_cleared (env : String → CallResult) (k : Bool)
    (s : AppState) :
    (s.isLoading = false → (handleProcessText env k s).isLoading = false) ∧
    (jsTrim s.inputText ≠ "" → (handleProcessText env k s).isLoading = false) ∧
    (s.isTranslating = false → (handleTranslate env k s).isTranslating = false) ∧
    (s.result.isSome = true → (handleTranslate env k s).isTranslating = false) := by
  refine ⟨?_, ?_, ?_, ?_⟩
  · intro h
    by_cases he : jsTrim s.inputText = ""
    · rw [handleProcessText_empty env k s he]
      exact h
    · exact handleProcessText_isLoading env k s he
  · intro h
    exact handleProcessText_isLoading env k s h
  · intro h
    cases hres : s.result with
    | none =>
      rw [handleTranslate_none env k s hres]
      exact h
    | some r => exact handleTranslate_isTranslating env k s r hres
  · intro h
    cases hres : s.result with
    | none => rw [hres] at h; simp at h
    | some r => exact handleTranslate_isTranslating env k s r hres

/-- Witness for C10 at concrete Stage-1 and Stage-2 invocations. -/
theorem loading_flags_cleared_witness :
    (handleProcessText envOkT true sHi).isLoading = false ∧
    (handleTranslate envOkT true sAB).isTranslating = false :=
  ⟨(loading_flags_cleared envOkT true sHi).1 (by decide),
   (loading_flags_cleared envOkT true sAB).2.2.1 (by decide)⟩

/-- Claim C2: in every state reachable through the controller's
operations, a present result has its two translated fields either both
present or both absent; and when Stage 2 runs on a result with
`improvedText="A"`, `summary="B"`, no translated fields, and one of the
two translate calls fails, the final result is exactly the old one — both
Stage-1 fields retained, neither translated field present — plus a
surfaced error. -/
theorem translated_fields_both_or_neither :
    (∀ s : AppState, Reachable s → ∀ r : ProcessedData, s.result = some r →
      (r.translatedImprovedText.isSome ↔ r.translatedSummary.isSome)) ∧
    (∀ (env : String → CallResult) (k : Bool) (s : AppState) (r : ProcessedData)
      (m : String),
      s.result = some r → r.improvedText = "A" → r.summary = "B" →
      r.translatedImprovedText = none → r.translatedSummary = none →
      (translateToItalianRun k env r.improvedText = .error m ∨
       translateToItalianRun k env r.summary = .error m) →
      (handleTranslate env k s).result = some r ∧
      (handleTranslate env k s).error.isSome = true) := by
  constructor
  · intro s hr r hres
    have hinv := reachable_resultInv s hr
    rw [hres] at hinv
    obtain ⟨_, _, hboth⟩ := hinv
    rcases hboth with ⟨e1, e2⟩ | ⟨t1, t2, e1, e2, _, _⟩ <;> simp [e1, e2]
  · intro env k s r m hres hA hB hn1 hn2 herr
    obtain ⟨h1, h2, _, _⟩ := handleTranslate_err env k s r m hres herr
    exact ⟨by rw [h1, hres], h2⟩

/-- Witness for C2: the invariant at a state reached by an actual Stage-1
run, and the one-failed-translation scenario at `improvedText="A"`,
`summary="B"`. -/
theorem translated_fields_both_or_neither_witness :
    ((none : Option String).isSome ↔ (none : Option String).isSome) ∧
    ((handleTranslate envFailB true sAB).result = some ⟨"A", "B", none, none⟩ ∧
     (handleTranslate envFailB true sAB).error.isSome = true) := by
  constructor
  · have r1 : Reachable (handleSelectKey true initState) :=
      Relation.ReflTransGen.tail Relation.ReflTransGen.refl (Step.selectKey initState true)
    have r2 : Reachable { handleSelectKey true initState with inputText := "hi" } :=
      r1.tail (Step.typeInput _ "hi")
    have r3 : Reachable (handleProcessText envOkT true
        { handleSelectKey true initState with inputText := "hi" }) :=
      r2.tail (Step.process _ envOkT true)
    exact translated_fields_both_or_neither.1 _ r3 ⟨"T", "T", none, none⟩ (by decide)
  · exact translated_fields_both_or_neither.2 envFailB true sAB ⟨"A", "B", none, none⟩
      (wrapTranslate "boom") rfl rfl rfl rfl rfl (Or.inr (by decide))

/-- Claim C6 counterexample: with load-time credential `K1` and active
credential `K2`, a run of the module-scope-client variant issues all its
calls with the stale `K1`, while the `getAiClient` variant uses `K2`; so
the claim that every run's client is constructed fresh from the
currently active credential fails for the module-scope variant. -/
theorem module_client_ignores_active_credential :
    (moduleClientRun (some "K1") (some "K2") genOk "t").2 =
      [(some "K1", improvePrompt "t"), (some "K1", summarizePrompt "out")] ∧
    (some "K1" : Option String) ≠ some "K2" ∧
    (freshClientRun (some "K2") genOk "t").2 =
      [(some "K2", improvePrompt "t"), (some "K2", summarizePrompt "out")] := by
  decide

/-- Claim C6 (amended): in the `getAiClient` variants the client is
constructed fresh for each run and every call of the run carries the
credential active at that run; in the module-scope variant of
geminiService.ts the client is constructed once at module load and cached,
so every call of every run carries the load-time credential even after a
credential change. -/
theorem client_credential_usage (loadKey runtimeKey : Option String)
    (gen : Option String → String → CallResult) (text : String) :
    (∀ c ∈ (moduleClientRun loadKey runtimeKey gen text).2, c.1 = loadKey) ∧
    (∀ c ∈ (freshClientRun runtimeKey gen text).2, c.1 = runtimeKey) := by
  constructor
  · intro c hc
    unfold moduleClientRun at hc
    split at hc
    · simp at hc
    · exact processTranscriptWithClientKey_calls loadKey gen text c hc
  · intro c hc
    unfold freshClientRun at hc
    split at hc
    · simp at hc
    · rename_i k heq
      rw [getAiClientKey_ok runtimeKey k heq]
      exact processTranscriptWithClientKey_calls (some k) gen text c hc

/-- Witness for C6's amended theorem at concrete calls of both variants. -/
theorem client_credential_usage_witness :
    ((some "K1", improvePrompt "t") : Option String × String).1 = some "K1" ∧
    ((some "K2", improvePrompt "t") : Option String × String).1 = some "K2" :=
  ⟨(client_credential_usage (some "K1") (some "K2") genOk "t").1
      (some "K1", improvePrompt "t") (by decide),
   (client_credential_usage (some "K1") (some "K2") genOk "t").2
      (some "K2", improvePrompt "t") (by decide)⟩

/-- Claim C7: in every Stage-1 run of the pipeline (src/unnamed/part_000),
when the improvement call fails — by throwing or by returning an empty
payload — the summarization call is never issued and the failure
propagates to the caller; and every summarization prompt that is issued is
built from the non-empty text the improvement call returned, not from the
original input. -/
theorem summarize_built_from_improved (key : String) (env : String → CallResult)
    (text : String) (hk : key ≠ "") :
    (∀ m, env (improvePrompt text) = .err m →
      processTranscriptItRun (some key) env text =
        (.error (wrapProcessIt m), [improvePrompt text])) ∧
    (env (improvePrompt text) = .ok "" →
      processTranscriptItRun (some key) env text =
        (.error (wrapProcessIt itImproveEmptyMsg), [improvePrompt text])) ∧
    (∀ p ∈ (processTranscriptItRun (some key) env text).2,
      p = improvePrompt text ∨
        ∃ imp, env (improvePrompt text) = .ok imp ∧ imp ≠ "" ∧
          p = summarizePrompt imp) := by
  rw [processTranscriptItRun_client_ok key env text hk]
  refine ⟨?_, ?_, ?_⟩
  · intro m hm
    unfold processTranscriptItBody
    rw [hm]
  · intro hm
    unfold processTranscriptItBody
    rw [hm]
    simp
  · intro p hp
    unfold processTranscriptItBody at hp
    split at hp
    · simp at hp
      exact Or.inl hp
    · rename_i imp henv
      split at hp
      · simp at hp
        exact Or.inl hp
      · rename_i hi
        split at hp
        · simp at hp
          rcases hp with hp | hp
          · exact Or.inl hp
          · exact Or.inr ⟨imp, henv, hi, hp⟩
        · split at hp
          · simp at hp
            rcases hp with hp | hp
            · exact Or.inl hp
            · exact Or.inr ⟨imp, henv, hi, hp⟩
          · simp at hp
            rcases hp with hp | hp
            · exact Or.inl hp
            · exact Or.inr ⟨imp, henv, hi, hp⟩

/-- Witness for C7 at a run whose improvement call throws. -/
theorem summarize_built_from_improved_witness :
    processTranscriptItRun (some "K") envBoom "t" =
      (.error (wrapProcessIt "boom"), [improvePrompt "t"]) ∧
    (improvePrompt "t" = improvePrompt "t" ∨
      ∃ imp, envBoom (improvePrompt "t") = .ok imp ∧ imp ≠ "" ∧
        improvePrompt "t" = summarizePrompt imp) :=
  ⟨(summarize_built_from_improved "K" envBoom "t" (by decide)).1 "boom" rfl,
   (summarize_built_from_improved "K" envBoom "t" (by decide)).2.2
     (improvePrompt "t") (by decide)⟩

/-- Claim C8: a file whose MIME type does not start with `text/plain`
(such as `image/png`) is rejected before any read occurs — the handler's
trace is the same whatever reading the file would have produced — a local
input error is set with no other state change, and no model call is
made. -/
theorem upload_rejected_before_read (s : AppState) (file : FileUpload)
    (h : jsStartsWith file.mimeType "text/plain" = false) :
    handleFileChangeTrace (some file) s = [.setError (some uploadRejectMsg)] ∧
    (∀ e ∈ handleFileChangeTrace (some file) s, e.isCall = false) ∧
    handleFileChange (some file) s = { s with error := some uploadRejectMsg } ∧
    (∀ o : ReadOutcome,
      handleFileChangeTrace (some ⟨file.mimeType, o⟩) s =
        handleFileChangeTrace (some file) s) := by
  obtain ⟨htr, hst⟩ := handleFileChange_reject s file h
  refine ⟨htr, ?_, hst, ?_⟩
  · rw [htr]
    intro e he
    simp at he
    rw [he]
    rfl
  · intro o
    rw [htr]
    exact (handleFileChange_reject s ⟨file.mimeType, o⟩ h).1

/-- Witness for C8 at a concrete `image/png` upload. -/
theorem upload_rejected_before_read_witness :
    handleFileChangeTrace (some ⟨"image/png", .success "x"⟩) initState =
      [.setError (some uploadRejectMsg)] ∧
    handleFileChange (some ⟨"image/png", .success "x"⟩) initState =
      { initState with error := some uploadRejectMsg } :=
  ⟨(upload_rejected_before_read initState ⟨"image/png", .success "x"⟩ (by decide)).1,
   (upload_rejected_before_read initState ⟨"image/png", .success "x"⟩
      (by decide)).2.2.1⟩

end Transcript
